import Mathlib

/-!
# Verification of the Ready Trader Go autotrader decision engine

This file gives a shallow embedding of `src/autotrader.cc` (the AutoTrader
event-handler logic) and proves properties of it.

Modelling conventions:
* C++ `unsigned long` (64-bit) values are `Nat`; additions and subtractions
  that can wrap are taken modulo `2^64` via `uadd` / `usub`.
* The C++ `long etfPosition` is an unbounded `Int` (signed overflow is
  undefined behaviour in C++ and unreachable in practice).
* `std::unordered_set<unsigned long>` is a duplicate-free `List Nat` with
  `setInsert` / `setErase`.
* Each handler is a pure function from the engine state and the message
  arguments to the new engine state paired with the list of gateway commands
  (`SendInsertOrder`, `SendCancelOrder`, `SendHedgeOrder`) it emits, in
  emission order.  Logging and `std::cout` are dropped (no state effect).
-/

/-- Wrap-around modulus of C++ `unsigned long` (64-bit). -/
def U64 : Nat := 2 ^ 64

/-- `unsigned long` addition. -/
def uadd (a b : Nat) : Nat := (a + b) % U64

/-- `unsigned long` subtraction (two's-complement wrap for `a b < U64`). -/
def usub (a b : Nat) : Nat := (a + U64 - b) % U64

/-- Conversion of a signed (`long`) value to `unsigned long`. -/
def u64ofInt (i : Int) : Nat := (i % (U64 : Int)).toNat

/-- Conversion of `unsigned long` to `long` (two's complement reinterpretation). -/
def toLong (v : Nat) : Int := if v < 2 ^ 63 then (v : Int) else (v : Int) - (U64 : Int)

/-! Constants from `src/autotrader.cc` lines 37-43. -/

def LOT_SIZE : Nat := 10

def POSITION_LIMIT : Nat := 100

def TICK_SIZE_IN_CENTS : Nat := 100

def BID_ASK_CLEARANCE : Nat := 1 * TICK_SIZE_IN_CENTS

def FUT_CLEARANCE : Nat := 1 * TICK_SIZE_IN_CENTS

/-- Modelled from the spec: the SDK price bounds `MINIMUM_BID` and
`MAXIMUM_ASK` come from the Ready Trader Go library headers, which are not
part of this repository's sources; the protocol fixes them at `1` and
`2^31 - 1` (prices are 31-bit cent amounts). -/
def MINIMUM_BID : Nat := 1

/-- Modelled from the spec: see `MINIMUM_BID`. -/
def MAXIMUM_ASK : Nat := 2 ^ 31 - 1

/-- `src/autotrader.cc` line 42. -/
def MIN_BID_NEARST_TICK : Nat :=
  (MINIMUM_BID + TICK_SIZE_IN_CENTS) / TICK_SIZE_IN_CENTS * TICK_SIZE_IN_CENTS

/-- `src/autotrader.cc` line 43. -/
def MAX_ASK_NEAREST_TICK : Nat :=
  MAXIMUM_ASK / TICK_SIZE_IN_CENTS * TICK_SIZE_IN_CENTS

inductive Side where
  | buy
  | sell
  deriving Repr, DecidableEq

inductive Lifespan where
  | goodForDay
  | immediateOrCancel
  deriving Repr, DecidableEq

inductive Instrument where
  | future
  | etf
  deriving Repr, DecidableEq

/-- A gateway command emitted by the engine (`SendInsertOrder`,
`SendCancelOrder`, `SendHedgeOrder`). -/
inductive Command where
  | cancelOrder (id : Nat)
  | insertOrder (id : Nat) (side : Side) (price : Nat) (volume : Nat) (lifespan : Lifespan)
  | hedgeOrder (id : Nat) (side : Side) (price : Nat) (volume : Nat)
  deriving Repr, DecidableEq

/-- Modelled from the spec: the member fields of `AutoTrader` are declared in
`autotrader.h`, which is not under `src/`; the field set is exactly the one
used by `src/autotrader.cc` and §3/§6 of the spec (in-memory state, starting
empty/zero). -/
structure EngineState where
  mNextMessageId : Nat
  mAskId : Nat
  mAskPrice : Nat
  mBidId : Nat
  mBidPrice : Nat
  mAsks : List Nat
  mBids : List Nat
  etfPosition : Int
  futAskPrice : Nat
  futAskVol : Nat
  futBidPrice : Nat
  futBidVol : Nat
  mMakeAskAwaitingCancelId : Nat
  mMakeAskAwaitingCancelPrice : Nat
  mMakeBidAwaitingCancelId : Nat
  mMakeBidAwaitingCancelPrice : Nat
  deriving Repr, DecidableEq

/-- Modelled from the spec: the engine starts with no orders, zero positions
and no cached reference prices (spec §3, §6: "Persisted state: none"). -/
def initState : EngineState :=
  { mNextMessageId := 0, mAskId := 0, mAskPrice := 0, mBidId := 0, mBidPrice := 0
    mAsks := [], mBids := [], etfPosition := 0
    futAskPrice := 0, futAskVol := 0, futBidPrice := 0, futBidVol := 0
    mMakeAskAwaitingCancelId := 0, mMakeAskAwaitingCancelPrice := 0
    mMakeBidAwaitingCancelId := 0, mMakeBidAwaitingCancelPrice := 0 }

/-- `std::unordered_set::insert`. -/
def setInsert (id : Nat) (l : List Nat) : List Nat :=
  if id ∈ l then l else id :: l

/-- `std::unordered_set::erase`. -/
def setErase (id : Nat) (l : List Nat) : List Nat :=
  l.filter (fun x => x ≠ id)

/-- `AutoTrader::maxAskVol` (line 227): `(POSITION_LIMIT + etfPosition) / 2`
in `unsigned long` arithmetic. -/
def maxAskVol (s : EngineState) : Nat :=
  u64ofInt ((POSITION_LIMIT : Int) + s.etfPosition) / 2

/-- `AutoTrader::maxBidVol` (line 255): `(POSITION_LIMIT - etfPosition) / 2`
in `unsigned long` arithmetic. -/
def maxBidVol (s : EngineState) : Nat :=
  u64ofInt ((POSITION_LIMIT : Int) - s.etfPosition) / 2

/-- `AutoTrader::getMakeAskPrice` (line 222). -/
def getMakeAskPrice (s : EngineState) (etfBestAskPrice : Nat) : Nat :=
  if etfBestAskPrice = 0 then uadd s.futAskPrice (3 * FUT_CLEARANCE)
  else max (uadd s.futAskPrice FUT_CLEARANCE) (usub etfBestAskPrice BID_ASK_CLEARANCE)

/-- `AutoTrader::getMakeBidPrice` (line 250). -/
def getMakeBidPrice (s : EngineState) (etfBestBidPrice : Nat) : Nat :=
  if etfBestBidPrice = 0 then usub s.futBidPrice (3 * TICK_SIZE_IN_CENTS)
  else min (usub s.futBidPrice FUT_CLEARANCE) (uadd etfBestBidPrice BID_ASK_CLEARANCE)

/-- `AutoTrader::makeAsk` (line 202). -/
def makeAsk (s : EngineState) (etfBestAskPrice : Nat) : EngineState × List Command :=
  let makeAskVol := maxAskVol s
  if makeAskVol = 0 then (s, [])
  else
    let askPrice := getMakeAskPrice s etfBestAskPrice
    let nid := uadd s.mNextMessageId 1
    ({ s with mAskPrice := askPrice, mNextMessageId := nid, mAskId := nid,
              mAsks := setInsert nid s.mAsks, mMakeAskAwaitingCancelId := 0 },
     [Command.insertOrder nid Side.sell askPrice makeAskVol Lifespan.goodForDay])

/-- `AutoTrader::makeBid` (line 231). -/
def makeBid (s : EngineState) (etfBestBidPrice : Nat) : EngineState × List Command :=
  let makeBidVol := maxBidVol s
  if makeBidVol = 0 then (s, [])
  else
    let bidPrice := getMakeBidPrice s etfBestBidPrice
    let nid := uadd s.mNextMessageId 1
    ({ s with mBidPrice := bidPrice, mNextMessageId := nid, mBidId := nid,
              mBids := setInsert nid s.mBids, mMakeBidAwaitingCancelId := 0 },
     [Command.insertOrder nid Side.buy bidPrice makeBidVol Lifespan.goodForDay])

/-- `AutoTrader::replaceCancelledTrade` (line 259).  Note: never invoked by
any handler (its call sites in `OrderStatusMessageHandler` are commented
out); modelled for completeness. -/
def replaceCancelledTrade (s : EngineState) (ask : Bool) (remainingVol : Nat) :
    EngineState × List Command :=
  if ask then
    let makeAskVol := maxAskVol s
    if makeAskVol ≤ remainingVol then (s, [])
    else
      let vol := makeAskVol - remainingVol
      let nid := uadd s.mNextMessageId 1
      ({ s with mNextMessageId := nid, mAskId := nid, mMakeAskAwaitingCancelId := 0,
                mAsks := setInsert nid s.mAsks },
       [Command.insertOrder nid Side.sell s.mMakeAskAwaitingCancelPrice vol Lifespan.goodForDay])
  else
    let makeBidVol := maxBidVol s
    if makeBidVol ≤ remainingVol then (s, [])
    else
      let vol := makeBidVol - remainingVol
      let nid := uadd s.mNextMessageId 1
      ({ s with mNextMessageId := nid, mBidId := nid, mMakeBidAwaitingCancelId := 0,
                mBids := setInsert nid s.mBids },
       [Command.insertOrder nid Side.buy s.mMakeBidAwaitingCancelPrice vol Lifespan.goodForDay])

/-- `AutoTrader::cancelOrder` (line 292).  Never invoked by any handler;
modelled for completeness. -/
def cancelOrder (s : EngineState) (id : Nat) (ask : Bool) : EngineState × List Command :=
  if ask then ({ s with mAskId := 0, mAskPrice := 0 }, [Command.cancelOrder id])
  else ({ s with mBidId := 0, mBidPrice := 0 }, [Command.cancelOrder id])

/-- `AutoTrader::setUpAwaitingCancelOrder` (line 306).  Never invoked by any
handler; modelled for completeness. -/
def setUpAwaitingCancelOrder (s : EngineState) (id price : Nat) (ask : Bool) : EngineState :=
  if ask then { s with mMakeAskAwaitingCancelId := id, mMakeAskAwaitingCancelPrice := price }
  else { s with mMakeBidAwaitingCancelId := id, mMakeBidAwaitingCancelPrice := price }

/-- The `Instrument::FUTURE` branch of `AutoTrader::OrderBookMessageHandler`
(lines 86-119): conditionally cancel our quotes, then cache top-of-book. -/
def orderBookFuture (s : EngineState) (a0 av0 b0 bv0 : Nat) : EngineState × List Command :=
  let c1 := if a0 = 0 ∧ s.mAskPrice ≠ 0 then [Command.cancelOrder s.mAskId] else []
  let c2 := if s.mAskPrice ≠ 0 ∧ a0 ≠ 0 ∧ s.mAskPrice < uadd a0 FUT_CLEARANCE then
              [Command.cancelOrder s.mAskId] else []
  let c3 := if b0 = 0 ∧ s.mBidPrice ≠ 0 then [Command.cancelOrder s.mBidId] else []
  let c4 := if s.mBidPrice ≠ 0 ∧ b0 ≠ 0 ∧ s.mBidPrice > usub b0 FUT_CLEARANCE then
              [Command.cancelOrder s.mBidId] else []
  ({ s with futAskPrice := a0, futAskVol := av0, futBidPrice := b0, futBidVol := bv0 },
   c1 ++ c2 ++ c3 ++ c4)

/-- The ask block (ASK 1/2/3, lines 128-163) of the `Instrument::ETF` branch
of `AutoTrader::OrderBookMessageHandler`. -/
def etfAskBlock (s : EngineState) (a0 : Nat) : EngineState × List Command :=
  if s.mAskId = 0 then
    if s.futAskPrice ≠ 0 then makeAsk s a0 else (s, [])
  else
    let r2 :=
      if s.mAskPrice < usub a0 BID_ASK_CLEARANCE then
        let nid := uadd s.mNextMessageId 1
        let vol := maxAskVol s
        ({ s with mNextMessageId := nid, mAskId := nid, mAsks := setInsert nid s.mAsks },
         [Command.cancelOrder s.mAskId,
          Command.insertOrder nid Side.sell (usub a0 BID_ASK_CLEARANCE) vol
            Lifespan.goodForDay])
      else (s, [])
    let s2 := r2.1
    if s2.mAskPrice > usub a0 BID_ASK_CLEARANCE ∧
       s2.mAskPrice > uadd s2.futAskPrice FUT_CLEARANCE then
      let r3 := makeAsk s2 a0
      (r3.1, r2.2 ++ Command.cancelOrder s2.mAskId :: r3.2)
    else r2

/-- The bid block (BID 1/2/3, lines 166-198) of the `Instrument::ETF` branch
of `AutoTrader::OrderBookMessageHandler`. -/
def etfBidBlock (s : EngineState) (b0 : Nat) : EngineState × List Command :=
  if s.mBidId = 0 then
    if s.futBidPrice ≠ 0 then makeBid s b0 else (s, [])
  else
    let r2 :=
      if s.mBidPrice > uadd b0 BID_ASK_CLEARANCE then
        let nid := uadd s.mNextMessageId 1
        let vol := maxBidVol s
        ({ s with mNextMessageId := nid, mBidId := nid, mBids := setInsert nid s.mBids },
         [Command.cancelOrder s.mBidId,
          Command.insertOrder nid Side.buy (uadd b0 BID_ASK_CLEARANCE) vol
            Lifespan.goodForDay])
      else (s, [])
    let s2 := r2.1
    if s2.mBidPrice < uadd b0 BID_ASK_CLEARANCE ∧
       s2.mBidPrice < usub s2.futBidPrice FUT_CLEARANCE then
      let r3 := makeBid s2 b0
      (r3.1, r2.2 ++ Command.cancelOrder s2.mBidId :: r3.2)
    else r2

/-- The `Instrument::ETF` branch of `AutoTrader::OrderBookMessageHandler`
(lines 121-198): the ask block followed by the bid block, sequentially
threading the state as the C++ code does. -/
def orderBookEtf (s : EngineState) (a0 b0 : Nat) : EngineState × List Command :=
  let askRes := etfAskBlock s a0
  let bidRes := etfBidBlock askRes.1 b0
  (bidRes.1, askRes.2 ++ bidRes.2)

/-- `AutoTrader::OrderBookMessageHandler` (line 77).  Only the top level
(`[0]`) of each of the four arrays is read by the C++ code. -/
def orderBookMessageHandler (s : EngineState) (instrument : Instrument)
    (sequenceNumber : Nat) (askPrices askVolumes bidPrices bidVolumes : Fin 5 → Nat) :
    EngineState × List Command :=
  match instrument with
  | Instrument.future => orderBookFuture s (askPrices 0) (askVolumes 0) (bidPrices 0) (bidVolumes 0)
  | Instrument.etf => orderBookEtf s (askPrices 0) (bidPrices 0)

/-- `AutoTrader::OrderFilledMessageHandler` (line 318). -/
def orderFilledMessageHandler (s : EngineState) (clientOrderId price volume : Nat) :
    EngineState × List Command :=
  if clientOrderId ∈ s.mAsks then
    ({ s with etfPosition := s.etfPosition - toLong volume,
              mNextMessageId := uadd s.mNextMessageId 1 },
     [Command.hedgeOrder (uadd s.mNextMessageId 1) Side.buy MAX_ASK_NEAREST_TICK volume])
  else if clientOrderId ∈ s.mBids then
    ({ s with etfPosition := s.etfPosition + toLong volume,
              mNextMessageId := uadd s.mNextMessageId 1 },
     [Command.hedgeOrder (uadd s.mNextMessageId 1) Side.sell MIN_BID_NEARST_TICK volume])
  else (s, [])

/-- `AutoTrader::OrderStatusMessageHandler` (line 336). -/
def orderStatusMessageHandler (s : EngineState) (clientOrderId fillVolume remainingVolume : Nat)
    (fees : Int) : EngineState × List Command :=
  if remainingVolume = 0 then
    let s1 := if clientOrderId = s.mAskId then { s with mAskId := 0 }
              else if clientOrderId = s.mBidId then { s with mBidId := 0 }
              else s
    ({ s1 with mAsks := setErase clientOrderId s1.mAsks,
               mBids := setErase clientOrderId s1.mBids }, [])
  else (s, [])

/-- `AutoTrader::ErrorMessageHandler` (line 55). -/
def errorMessageHandler (s : EngineState) (clientOrderId : Nat) (errorMessage : String) :
    EngineState × List Command :=
  if clientOrderId ≠ 0 ∧ (clientOrderId ∈ s.mAsks ∨ clientOrderId ∈ s.mBids) then
    orderStatusMessageHandler s clientOrderId 0 0 0
  else (s, [])

/-- `AutoTrader::HedgeFilledMessageHandler` (line 65): logging only. -/
def hedgeFilledMessageHandler (s : EngineState) (clientOrderId price volume : Nat) :
    EngineState × List Command :=
  (s, [])

/-- `AutoTrader::TradeTicksMessageHandler` (line 363): the body is empty
(everything in it is commented out). -/
def tradeTicksMessageHandler (s : EngineState) (instrument : Instrument)
    (sequenceNumber : Nat) (askPrices askVolumes bidPrices bidVolumes : Fin 5 → Nat) :
    EngineState × List Command :=
  (s, [])

/-- The inbound events of the engine (spec §6), dispatched to the handlers of
`src/autotrader.cc`. -/
inductive Event where
  | orderBook (instrument : Instrument) (sequenceNumber : Nat)
      (askPrices askVolumes bidPrices bidVolumes : Fin 5 → Nat)
  | orderFilled (clientOrderId price volume : Nat)
  | orderStatus (clientOrderId fillVolume remainingVolume : Nat) (fees : Int)
  | hedgeFilled (clientOrderId price volume : Nat)
  | tradeTicks (instrument : Instrument) (sequenceNumber : Nat)
      (askPrices askVolumes bidPrices bidVolumes : Fin 5 → Nat)
  | errorMessage (clientOrderId : Nat) (text : String)

/-- One dispatched event: new state and emitted commands. -/
def step (s : EngineState) : Event → EngineState × List Command
  | Event.orderBook i sq ap av bp bv => orderBookMessageHandler s i sq ap av bp bv
  | Event.orderFilled id p v => orderFilledMessageHandler s id p v
  | Event.orderStatus id f r fees => orderStatusMessageHandler s id f r fees
  | Event.hedgeFilled id p v => hedgeFilledMessageHandler s id p v
  | Event.tradeTicks i sq ap av bp bv => tradeTicksMessageHandler s i sq ap av bp bv
  | Event.errorMessage id text => errorMessageHandler s id text

/-- Run a sequence of events from a state. -/
def runFrom (s : EngineState) : List Event → EngineState
  | [] => s
  | e :: es => runFrom (step s e).1 es

/-- All commands emitted while running a sequence of events. -/
def commandsFrom (s : EngineState) : List Event → List Command
  | [] => []
  | e :: es => (step s e).2 ++ commandsFrom (step s e).1 es

/-- A book-update argument with only the top level populated. -/
def topOnly (x : Nat) : Fin 5 → Nat := fun i => if i = 0 then x else 0

/-! ## Command classifiers -/

/-- Is the command a hedge order? -/
def isHedge : Command → Bool
  | Command.hedgeOrder _ _ _ _ => true
  | _ => false

/-- Is the command an insert order (on either side)? -/
def isInsert : Command → Bool
  | Command.insertOrder _ _ _ _ _ => true
  | _ => false

/-- Is the command a sell (ask) insert? -/
def isSellInsert : Command → Bool
  | Command.insertOrder _ Side.sell _ _ _ => true
  | _ => false

/-- Is the command a buy (bid) insert? -/
def isBuyInsert : Command → Bool
  | Command.insertOrder _ Side.buy _ _ _ => true
  | _ => false

/-- The volumes of the sell inserts of a command list, in order. -/
def sellInsertVols (cmds : List Command) : List Nat :=
  cmds.filterMap fun c => match c with
    | Command.insertOrder _ Side.sell _ v _ => some v
    | _ => none

/-- The volumes of the buy inserts of a command list, in order. -/
def buyInsertVols (cmds : List Command) : List Nat :=
  cmds.filterMap fun c => match c with
    | Command.insertOrder _ Side.buy _ v _ => some v
    | _ => none

/-! ## Concrete event traces used as counterexamples -/

/-- A futures (reference) book update with only the top level populated. -/
def evFut (a b : Nat) : Event :=
  Event.orderBook Instrument.future 0 (topOnly a) (topOnly 0) (topOnly b) (topOnly 0)

/-- An ETF (primary) book update with only the top level populated. -/
def evEtf (a b : Nat) : Event :=
  Event.orderBook Instrument.etf 0 (topOnly a) (topOnly 0) (topOnly b) (topOnly 0)

/-- Futures ask at 10000, then ETF ask at 10500 (our ask id 1 at 10400,
volume 50), then a fill of order 1 for 10 lots. -/
def hedgeTrace : List Event :=
  [evFut 10000 0, evEtf 10500 0, Event.orderFilled 1 10400 10]

/-- Two successive cancel/replace cycles on the ask side: orders 1, 2, 3 of
50 lots each are submitted, with orders 1 and 2 cancel-requested but never
confirmed done. -/
def raceTrace : List Event :=
  [evFut 10000 0, evEtf 10500 0, evEtf 11000 0, evEtf 11600 0]

/-- `raceTrace` followed by full fills of all three outstanding asks. -/
def overfillTrace : List Event :=
  raceTrace ++ [Event.orderFilled 1 10400 50, Event.orderFilled 2 10900 50,
                Event.orderFilled 3 11500 50]

/-- Ask 1 and its cancel-raced replacement 2 both fill fully (position
-100), then another ETF tick triggers the ASK 2 cancel/replace path with a
computed volume of zero. -/
def zeroVolTrace : List Event :=
  [evFut 10000 0, evEtf 10500 0, evEtf 11000 0,
   Event.orderFilled 1 10400 50, Event.orderFilled 2 10900 50, evEtf 12000 0]

/-- Our ask rests at 10400, the futures ask jumps to 20000 (a cancel is
requested but not confirmed), then an ETF tick triggers the ASK 2 path,
inserting at 10900 — far below the reference boundary 20100. -/
def boundaryTrace : List Event :=
  [evFut 10000 0, evEtf 10500 0, evFut 20000 0, evEtf 11000 0]

/-- Our ask rests at 10400, the futures ask side empties (reference price
becomes 0; a cancel is requested but not confirmed), then an ETF tick
triggers the ASK 2 path, inserting while the stored reference ask is 0. -/
def zeroRefTrace : List Event :=
  [evFut 10000 0, evEtf 10500 0, evFut 0 0, evEtf 11000 0]

/-- A cancel is requested on the live ask 1 (volume 50) and its replacement
2 is submitted in the same tick; then a fill for 30 lots of order 1 arrives,
and finally the cancel confirmation (status with zero remaining volume). -/
def cancelRaceFillTrace : List Event :=
  [evFut 10000 0, evEtf 10500 0, evEtf 11000 0, Event.orderFilled 1 10400 30,
   Event.orderStatus 1 30 0 0]

/-! ## Spec-side definitions (used to state the claims under test)

These definitions follow the specification's words, for comparison with the
definitions above that are translated from the source. -/

/-- Modelled from the spec: "lowest representable ask tick" — the smallest
positive tick-aligned price at or above the protocol minimum. -/
def specLowestRepresentableTick : Nat :=
  (MINIMUM_BID + TICK_SIZE_IN_CENTS - 1) / TICK_SIZE_IN_CENTS * TICK_SIZE_IN_CENTS

/-- Modelled from the spec: "highest representable bid tick" — the largest
tick-aligned price at or below the protocol maximum. -/
def specHighestRepresentableTick : Nat :=
  MAXIMUM_ASK / TICK_SIZE_IN_CENTS * TICK_SIZE_IN_CENTS

/-- The claim C1 pricing rule, as the spec states it: a buy hedge at the
lowest representable tick and a sell hedge at the highest representable
tick. -/
def hedgePricedAsSpecC1 : Command → Bool
  | Command.hedgeOrder _ Side.buy p _ => p = specLowestRepresentableTick
  | Command.hedgeOrder _ Side.sell p _ => p = specHighestRepresentableTick
  | _ => true

/-- Does some step taken on an `orderFilled` event emit a hedge command?
(The spec's claim C2 says hedges are never issued directly on a fill.) -/
def hedgeOnSomeFillStep (s : EngineState) : List Event → Bool
  | [] => false
  | e :: es =>
      (match e with
       | Event.orderFilled _ _ _ => (step s e).2.any isHedge
       | _ => false) || hedgeOnSomeFillStep (step s e).1 es

/-- The claim C5 boundary rule, stepwise over a run: every sell insert is
priced at or above the stored reference ask plus the clearance and every buy
insert at or below the stored reference bid minus the clearance, both taken
in the state in which the insert is emitted. -/
def quotesRespectReference (s : EngineState) : List Event → Bool
  | [] => true
  | e :: es =>
      (step s e).2.all (fun c =>
        match c with
        | Command.insertOrder _ Side.sell p _ _ => uadd s.futAskPrice FUT_CLEARANCE ≤ p
        | Command.insertOrder _ Side.buy p _ _ => p ≤ usub s.futBidPrice FUT_CLEARANCE
        | _ => true) && quotesRespectReference (step s e).1 es

/-- The claim C7 rule, stepwise over a run: no sell insert is emitted while
the stored reference ask price is 0, and no buy insert while the stored
reference bid price is 0. -/
def noQuoteOnZeroReference (s : EngineState) : List Event → Bool
  | [] => true
  | e :: es =>
      (step s e).2.all (fun c =>
        match c with
        | Command.insertOrder _ Side.sell _ _ _ => s.futAskPrice ≠ 0
        | Command.insertOrder _ Side.buy _ _ _ => s.futBidPrice ≠ 0
        | _ => true) && noQuoteOnZeroReference (step s e).1 es

/-- Does the command list contain a zero-volume insert order? -/
def hasZeroVolInsert (cmds : List Command) : Bool :=
  cmds.any fun c =>
    match c with
    | Command.insertOrder _ _ _ 0 _ => true
    | _ => false

/-- Total volume the engine has submitted (via insert orders) under a given
client order id. -/
def insertedVolume (cmds : List Command) (id : Nat) : Nat :=
  (cmds.filterMap fun c =>
    match c with
    | Command.insertOrder i _ _ v _ => if i = id then some v else none
    | _ => none).sum

/-- Total volume reported filled for a given client order id in a trace. -/
def filledVolume (tr : List Event) (id : Nat) : Nat :=
  (tr.filterMap fun e =>
    match e with
    | Event.orderFilled i _ v => if i = id then some v else none
    | _ => none).sum

/-- A trace's fill events are consistent with the volumes the engine has
submitted: for every filled order id, the total filled volume does not
exceed the total volume the engine submitted under that id. -/
def fillsConsistent (tr : List Event) : Bool :=
  tr.all fun e =>
    match e with
    | Event.orderFilled id _ _ =>
        filledVolume tr id ≤ insertedVolume (commandsFrom initState tr) id
    | _ => true

/-! ## Ghost state for the position-bound argument

The engine state is augmented with the unfilled remaining volume of the
current ask and bid orders.  `gstep` drives the engine with `step` and
updates the remainders from the submitted volumes and the fill/status
events. -/

/-- Engine state plus the remaining (unfilled) volume of the current ask and
bid orders. -/
structure GState where
  engine : EngineState
  askRem : Nat
  bidRem : Nat

/-- The initial ghost state: no orders resting. -/
def initGState : GState := ⟨initState, 0, 0⟩

/-- Ghost step: the engine component follows `step`; the remainders pick up
the volume of a newly submitted order, shrink with fills of the current
order, and clear when the current order reaches a terminal status. -/
def gstep (g : GState) (e : Event) : GState :=
  { engine := (step g.engine e).1
    askRem :=
      match e with
      | Event.orderBook Instrument.etf _ _ _ _ _ =>
          (sellInsertVols (step g.engine e).2).headD g.askRem
      | Event.orderFilled id _ v =>
          if id = g.engine.mAskId ∧ id ∈ g.engine.mAsks then g.askRem - v else g.askRem
      | Event.orderStatus id _ r _ =>
          if r = 0 ∧ id = g.engine.mAskId then 0 else g.askRem
      | Event.errorMessage id _ =>
          if id ≠ 0 ∧ (id ∈ g.engine.mAsks ∨ id ∈ g.engine.mBids) ∧ id = g.engine.mAskId
          then 0 else g.askRem
      | _ => g.askRem
    bidRem :=
      match e with
      | Event.orderBook Instrument.etf _ _ _ _ _ =>
          (buyInsertVols (step g.engine e).2).headD g.bidRem
      | Event.orderFilled id _ v =>
          if id = g.engine.mBidId ∧ id ∉ g.engine.mAsks ∧ id ∈ g.engine.mBids
          then g.bidRem - v else g.bidRem
      | Event.orderStatus id _ r _ =>
          if r = 0 ∧ id ≠ g.engine.mAskId ∧ id = g.engine.mBidId then 0 else g.bidRem
      | Event.errorMessage id _ =>
          if id ≠ 0 ∧ (id ∈ g.engine.mAsks ∨ id ∈ g.engine.mBids) ∧ id ≠ g.engine.mAskId ∧
             id = g.engine.mBidId
          then 0 else g.bidRem
      | _ => g.bidRem }

/-- A fill event is good when it targets the engine's current order on its
side and its volume does not exceed that order's remaining volume (this is
the "consistent with submitted volumes" discipline restricted to the current
orders); all other events are unconstrained. -/
def goodEventB (g : GState) : Event → Bool
  | Event.orderFilled id _ v =>
      decide (v < 2 ^ 63) &&
      ((decide (id = g.engine.mAskId) && decide (id ∈ g.engine.mAsks) &&
        decide (v ≤ g.askRem)) ||
       (decide (id = g.engine.mBidId) && decide (id ∉ g.engine.mAsks) &&
        decide (id ∈ g.engine.mBids) && decide (v ≤ g.bidRem)))
  | _ => true

/-- All fill events of the trace are good in the sense of `goodEventB`. -/
def goodRunB (g : GState) : List Event → Bool
  | [] => true
  | e :: es => goodEventB g e && goodRunB (gstep g e) es

/-- Run a trace through the ghost step. -/
def grun (g : GState) : List Event → GState
  | [] => g
  | e :: es => grun (gstep g e) es

/-- The ghost invariant: the position cannot fall below the limit even if
the current ask fills completely, nor rise above it even if the current bid
fills completely. -/
def ghostInv (g : GState) : Prop :=
  -(POSITION_LIMIT : Int) ≤ g.engine.etfPosition - (g.askRem : Int) ∧
  g.engine.etfPosition + (g.bidRem : Int) ≤ (POSITION_LIMIT : Int)

/-! ## Concrete states used in witnesses -/

/-- A state with one live ask order (id 7). -/
def askLiveState : EngineState := { initState with mAskId := 7, mAsks := [7] }

/-- A state at the short position limit. -/
def shortLimitState : EngineState := { initState with etfPosition := -100 }

/-- A state with both reference prices cached. -/
def refState : EngineState := { initState with futAskPrice := 10000, futBidPrice := 9000 }

/-- A state with a cached reference bid but no reference ask and no orders. -/
def noRefAskState : EngineState := { initState with futBidPrice := 9000 }

/-- A state in which a cancelled ask of price 10900 awaits replacement and
30 lots have been sold. -/
def rrState : EngineState :=
  { initState with etfPosition := -30, mMakeAskAwaitingCancelPrice := 10900 }

/-- Is the command a sell insert at one of the volumes the claim C8 would
require for the replacement in `cancelRaceFillTrace` (capacity minus the 30
filled lots: 20 for the at-submission capacity, 5 for the freshly recomputed
one)? -/
def isReducedReplacement : Command → Bool
  | Command.insertOrder _ Side.sell _ 20 _ => true
  | Command.insertOrder _ Side.sell _ 5 _ => true
  | _ => false

/-! ## Helper lemmas -/

theorem uadd_eq_add {a b : Nat} (h : a + b < U64) : uadd a b = a + b := by
  unfold uadd
  exact Nat.mod_eq_of_lt h

theorem usub_eq_sub {a b : Nat} (h1 : b ≤ a) (h2 : a < U64) : usub a b = a - b := by
  unfold usub
  have h3 : a + U64 - b = (a - b) + U64 := by omega
  rw [h3, Nat.add_mod_right, Nat.mod_eq_of_lt (by omega)]

theorem setErase_of_not_mem {id : Nat} {l : List Nat} (h : id ∉ l) : setErase id l = l := by
  unfold setErase
  rw [List.filter_eq_self]
  intro a ha
  have hne : a ≠ id := fun e => h (e ▸ ha)
  simp [hne]

/-- Case split on `AutoTrader::makeAsk`: either volume zero (no command, no
state change), or exactly one good-for-day sell insert at
`getMakeAskPrice` for `maxAskVol` lots. -/
theorem makeAsk_shape (s : EngineState) (a0 : Nat) :
    (maxAskVol s = 0 ∧ makeAsk s a0 = (s, [])) ∨
    (maxAskVol s ≠ 0 ∧ makeAsk s a0 =
      ({ s with mAskPrice := getMakeAskPrice s a0,
                mNextMessageId := uadd s.mNextMessageId 1,
                mAskId := uadd s.mNextMessageId 1,
                mAsks := setInsert (uadd s.mNextMessageId 1) s.mAsks,
                mMakeAskAwaitingCancelId := 0 },
       [Command.insertOrder (uadd s.mNextMessageId 1) Side.sell (getMakeAskPrice s a0)
          (maxAskVol s) Lifespan.goodForDay])) := by
  unfold makeAsk
  by_cases h : maxAskVol s = 0
  · exact Or.inl ⟨h, by simp [h]⟩
  · exact Or.inr ⟨h, by simp [h]⟩

/-- Case split on `AutoTrader::makeBid`, symmetric to `makeAsk_shape`. -/
theorem makeBid_shape (s : EngineState) (b0 : Nat) :
    (maxBidVol s = 0 ∧ makeBid s b0 = (s, [])) ∨
    (maxBidVol s ≠ 0 ∧ makeBid s b0 =
      ({ s with mBidPrice := getMakeBidPrice s b0,
                mNextMessageId := uadd s.mNextMessageId 1,
                mBidId := uadd s.mNextMessageId 1,
                mBids := setInsert (uadd s.mNextMessageId 1) s.mBids,
                mMakeBidAwaitingCancelId := 0 },
       [Command.insertOrder (uadd s.mNextMessageId 1) Side.buy (getMakeBidPrice s b0)
          (maxBidVol s) Lifespan.goodForDay])) := by
  unfold makeBid
  by_cases h : maxBidVol s = 0
  · exact Or.inl ⟨h, by simp [h]⟩
  · exact Or.inr ⟨h, by simp [h]⟩

/-- The ask block of the ETF book handler emits one of: nothing, a lone
cancel, a lone sell insert, or a cancel followed by a sell insert; any
emitted insert is good-for-day with volume at most `maxAskVol` of the
entry state. -/
theorem etfAskBlock_shape (s : EngineState) (a0 : Nat) :
    (etfAskBlock s a0).2 = [] ∨
    (∃ j, (etfAskBlock s a0).2 = [Command.cancelOrder j]) ∨
    (∃ i p v, v ≤ maxAskVol s ∧
      ((etfAskBlock s a0).2 = [Command.insertOrder i Side.sell p v Lifespan.goodForDay] ∨
       ∃ j, (etfAskBlock s a0).2 =
         [Command.cancelOrder j, Command.insertOrder i Side.sell p v Lifespan.goodForDay])) := by
  unfold etfAskBlock
  by_cases h1 : s.mAskId = 0
  · rw [if_pos h1]
    by_cases h2 : s.futAskPrice ≠ 0
    · rw [if_pos h2]
      rcases makeAsk_shape s a0 with ⟨hv, he⟩ | ⟨hv, he⟩
      · rw [he]
        exact Or.inl rfl
      · rw [he]
        exact Or.inr (Or.inr ⟨_, _, _, le_refl _, Or.inl rfl⟩)
    · rw [if_neg h2]
      exact Or.inl rfl
  · rw [if_neg h1]
    by_cases h2 : s.mAskPrice < usub a0 BID_ASK_CLEARANCE
    · rw [if_pos h2]
      dsimp only
      rw [if_neg (by simp only [gt_iff_lt, not_and]; intro h; omega)]
      exact Or.inr (Or.inr ⟨_, _, _, le_refl _, Or.inr ⟨_, rfl⟩⟩)
    · rw [if_neg h2]
      dsimp only
      by_cases h3 : s.mAskPrice > usub a0 BID_ASK_CLEARANCE ∧
          s.mAskPrice > uadd s.futAskPrice FUT_CLEARANCE
      · rw [if_pos h3]
        rcases makeAsk_shape s a0 with ⟨hv, he⟩ | ⟨hv, he⟩
        · rw [he]
          exact Or.inr (Or.inl ⟨_, rfl⟩)
        · rw [he]
          exact Or.inr (Or.inr ⟨_, _, _, le_refl _, Or.inr ⟨_, rfl⟩⟩)
      · rw [if_neg h3]
        exact Or.inl rfl

/-- The bid block of the ETF book handler, symmetric to `etfAskBlock_shape`. -/
theorem etfBidBlock_shape (s : EngineState) (b0 : Nat) :
    (etfBidBlock s b0).2 = [] ∨
    (∃ j, (etfBidBlock s b0).2 = [Command.cancelOrder j]) ∨
    (∃ i p v, v ≤ maxBidVol s ∧
      ((etfBidBlock s b0).2 = [Command.insertOrder i Side.buy p v Lifespan.goodForDay] ∨
       ∃ j, (etfBidBlock s b0).2 =
         [Command.cancelOrder j, Command.insertOrder i Side.buy p v Lifespan.goodForDay])) := by
  unfold etfBidBlock
  by_cases h1 : s.mBidId = 0
  · rw [if_pos h1]
    by_cases h2 : s.futBidPrice ≠ 0
    · rw [if_pos h2]
      rcases makeBid_shape s b0 with ⟨hv, he⟩ | ⟨hv, he⟩
      · rw [he]
        exact Or.inl rfl
      · rw [he]
        exact Or.inr (Or.inr ⟨_, _, _, le_refl _, Or.inl rfl⟩)
    · rw [if_neg h2]
      exact Or.inl rfl
  · rw [if_neg h1]
    by_cases h2 : s.mBidPrice > uadd b0 BID_ASK_CLEARANCE
    · rw [if_pos h2]
      dsimp only
      rw [if_neg (by simp only [gt_iff_lt, not_and]; intro h; omega)]
      exact Or.inr (Or.inr ⟨_, _, _, le_refl _, Or.inr ⟨_, rfl⟩⟩)
    · rw [if_neg h2]
      dsimp only
      by_cases h3 : s.mBidPrice < uadd b0 BID_ASK_CLEARANCE ∧
          s.mBidPrice < usub s.futBidPrice FUT_CLEARANCE
      · rw [if_pos h3]
        rcases makeBid_shape s b0 with ⟨hv, he⟩ | ⟨hv, he⟩
        · rw [he]
          exact Or.inr (Or.inl ⟨_, rfl⟩)
        · rw [he]
          exact Or.inr (Or.inr ⟨_, _, _, le_refl _, Or.inr ⟨_, rfl⟩⟩)
      · rw [if_neg h3]
        exact Or.inl rfl

/-- `makeAsk` does not touch the position, the bid-side fields or the
cached reference prices. -/
theorem makeAsk_fields (s : EngineState) (a0 : Nat) :
    (makeAsk s a0).1.etfPosition = s.etfPosition ∧
    (makeAsk s a0).1.mBidId = s.mBidId ∧
    (makeAsk s a0).1.mBidPrice = s.mBidPrice ∧
    (makeAsk s a0).1.mBids = s.mBids ∧
    (makeAsk s a0).1.futAskPrice = s.futAskPrice ∧
    (makeAsk s a0).1.futBidPrice = s.futBidPrice := by
  rcases makeAsk_shape s a0 with ⟨_, he⟩ | ⟨_, he⟩ <;> rw [he] <;>
    exact ⟨rfl, rfl, rfl, rfl, rfl, rfl⟩

/-- `makeBid` does not touch the position, the ask-side fields or the
cached reference prices. -/
theorem makeBid_fields (s : EngineState) (b0 : Nat) :
    (makeBid s b0).1.etfPosition = s.etfPosition ∧
    (makeBid s b0).1.mAskId = s.mAskId ∧
    (makeBid s b0).1.mAskPrice = s.mAskPrice ∧
    (makeBid s b0).1.mAsks = s.mAsks ∧
    (makeBid s b0).1.futAskPrice = s.futAskPrice ∧
    (makeBid s b0).1.futBidPrice = s.futBidPrice := by
  rcases makeBid_shape s b0 with ⟨_, he⟩ | ⟨_, he⟩ <;> rw [he] <;>
    exact ⟨rfl, rfl, rfl, rfl, rfl, rfl⟩

/-- The ask block does not touch the position, the bid-side fields or the
cached reference prices. -/
theorem etfAskBlock_fields (s : EngineState) (a0 : Nat) :
    (etfAskBlock s a0).1.etfPosition = s.etfPosition ∧
    (etfAskBlock s a0).1.mBidId = s.mBidId ∧
    (etfAskBlock s a0).1.mBidPrice = s.mBidPrice ∧
    (etfAskBlock s a0).1.mBids = s.mBids ∧
    (etfAskBlock s a0).1.futAskPrice = s.futAskPrice ∧
    (etfAskBlock s a0).1.futBidPrice = s.futBidPrice := by
  unfold etfAskBlock
  by_cases h1 : s.mAskId = 0
  · rw [if_pos h1]
    by_cases h2 : s.futAskPrice ≠ 0
    · rw [if_pos h2]
      exact makeAsk_fields s a0
    · rw [if_neg h2]
      exact ⟨rfl, rfl, rfl, rfl, rfl, rfl⟩
  · rw [if_neg h1]
    by_cases h2 : s.mAskPrice < usub a0 BID_ASK_CLEARANCE
    · rw [if_pos h2]
      dsimp only
      rw [if_neg (by simp only [gt_iff_lt, not_and]; intro h; omega)]
      exact ⟨rfl, rfl, rfl, rfl, rfl, rfl⟩
    · rw [if_neg h2]
      dsimp only
      by_cases h3 : s.mAskPrice > usub a0 BID_ASK_CLEARANCE ∧
          s.mAskPrice > uadd s.futAskPrice FUT_CLEARANCE
      · rw [if_pos h3]
        exact makeAsk_fields s a0
      · rw [if_neg h3]
        exact ⟨rfl, rfl, rfl, rfl, rfl, rfl⟩

/-- The bid block does not touch the position, the ask-side fields or the
cached reference prices. -/
theorem etfBidBlock_fields (s : EngineState) (b0 : Nat) :
    (etfBidBlock s b0).1.etfPosition = s.etfPosition ∧
    (etfBidBlock s b0).1.mAskId = s.mAskId ∧
    (etfBidBlock s b0).1.mAskPrice = s.mAskPrice ∧
    (etfBidBlock s b0).1.mAsks = s.mAsks ∧
    (etfBidBlock s b0).1.futAskPrice = s.futAskPrice ∧
    (etfBidBlock s b0).1.futBidPrice = s.futBidPrice := by
  unfold etfBidBlock
  by_cases h1 : s.mBidId = 0
  · rw [if_pos h1]
    by_cases h2 : s.futBidPrice ≠ 0
    · rw [if_pos h2]
      exact makeBid_fields s b0
    · rw [if_neg h2]
      exact ⟨rfl, rfl, rfl, rfl, rfl, rfl⟩
  · rw [if_neg h1]
    by_cases h2 : s.mBidPrice > uadd b0 BID_ASK_CLEARANCE
    · rw [if_pos h2]
      dsimp only
      rw [if_neg (by simp only [gt_iff_lt, not_and]; intro h; omega)]
      exact ⟨rfl, rfl, rfl, rfl, rfl, rfl⟩
    · rw [if_neg h2]
      dsimp only
      by_cases h3 : s.mBidPrice < uadd b0 BID_ASK_CLEARANCE ∧
          s.mBidPrice < usub s.futBidPrice FUT_CLEARANCE
      · rw [if_pos h3]
        exact makeBid_fields s b0
      · rw [if_neg h3]
        exact ⟨rfl, rfl, rfl, rfl, rfl, rfl⟩

/-- Every command of the ask block is a cancel or a bounded-volume
good-for-day sell insert. -/
theorem etfAskBlock_mem (s : EngineState) (a0 : Nat) (c : Command)
    (hc : c ∈ (etfAskBlock s a0).2) :
    (∃ j, c = Command.cancelOrder j) ∨
    (∃ i p v, v ≤ maxAskVol s ∧ c = Command.insertOrder i Side.sell p v Lifespan.goodForDay) := by
  rcases etfAskBlock_shape s a0 with he | ⟨j, he⟩ | ⟨i, p, v, hv, he | ⟨j, he⟩⟩
  · rw [he] at hc
    exact absurd hc (List.not_mem_nil c)
  · rw [he] at hc
    simp only [List.mem_singleton] at hc
    exact Or.inl ⟨j, hc⟩
  · rw [he] at hc
    simp only [List.mem_singleton] at hc
    exact Or.inr ⟨i, p, v, hv, hc⟩
  · rw [he] at hc
    simp only [List.mem_cons, List.not_mem_nil, or_false] at hc
    rcases hc with hc | hc
    · exact Or.inl ⟨j, hc⟩
    · exact Or.inr ⟨i, p, v, hv, hc⟩

/-- Every command of the bid block is a cancel or a bounded-volume
good-for-day buy insert. -/
theorem etfBidBlock_mem (s : EngineState) (b0 : Nat) (c : Command)
    (hc : c ∈ (etfBidBlock s b0).2) :
    (∃ j, c = Command.cancelOrder j) ∨
    (∃ i p v, v ≤ maxBidVol s ∧ c = Command.insertOrder i Side.buy p v Lifespan.goodForDay) := by
  rcases etfBidBlock_shape s b0 with he | ⟨j, he⟩ | ⟨i, p, v, hv, he | ⟨j, he⟩⟩
  · rw [he] at hc
    exact absurd hc (List.not_mem_nil c)
  · rw [he] at hc
    simp only [List.mem_singleton] at hc
    exact Or.inl ⟨j, hc⟩
  · rw [he] at hc
    simp only [List.mem_singleton] at hc
    exact Or.inr ⟨i, p, v, hv, hc⟩
  · rw [he] at hc
    simp only [List.mem_cons, List.not_mem_nil, or_false] at hc
    rcases hc with hc | hc
    · exact Or.inl ⟨j, hc⟩
    · exact Or.inr ⟨i, p, v, hv, hc⟩

/-- Membership in a conditional singleton cancel list. -/
theorem mem_ite_cancel {c : Command} {cond : Prop} [Decidable cond] {x : Nat}
    (hc : c ∈ (if cond then [Command.cancelOrder x] else [])) :
    ∃ j, c = Command.cancelOrder j := by
  split at hc
  · simp only [List.mem_singleton] at hc
    exact ⟨x, hc⟩
  · exact absurd hc (List.not_mem_nil c)

/-- The futures branch of the book handler emits only cancels. -/
theorem orderBookFuture_mem (s : EngineState) (a0 av0 b0 bv0 : Nat) (c : Command)
    (hc : c ∈ (orderBookFuture s a0 av0 b0 bv0).2) : ∃ j, c = Command.cancelOrder j := by
  unfold orderBookFuture at hc
  dsimp only at hc
  simp only [List.mem_append] at hc
  rcases hc with ((hc | hc) | hc) | hc <;> exact mem_ite_cancel hc

/-! ## Further classification lemmas -/

/-- The status handler emits no commands (in particular it never invokes
`replaceCancelledTrade`: those call sites are commented out in the source). -/
theorem orderStatus_no_cmds (s : EngineState) (id f r : Nat) (fees : Int) :
    (orderStatusMessageHandler s id f r fees).2 = [] := by
  unfold orderStatusMessageHandler
  split <;> rfl

/-- The error handler emits no commands. -/
theorem errorMessage_no_cmds (s : EngineState) (id : Nat) (msg : String) :
    (errorMessageHandler s id msg).2 = [] := by
  unfold errorMessageHandler
  split
  · exact orderStatus_no_cmds s id 0 0 0
  · rfl

/-- The ask block emits at most one sell insert. -/
theorem etfAskBlock_sell_count (s : EngineState) (a0 : Nat) :
    ((etfAskBlock s a0).2.countP isSellInsert) ≤ 1 := by
  rcases etfAskBlock_shape s a0 with he | ⟨j, he⟩ | ⟨i, p, v, hv, he | ⟨j, he⟩⟩ <;>
    rw [he] <;> simp [List.countP_cons, isSellInsert]

/-- The ask block emits no buy insert. -/
theorem etfAskBlock_buy_count (s : EngineState) (a0 : Nat) :
    ((etfAskBlock s a0).2.countP isBuyInsert) = 0 := by
  rw [List.countP_eq_zero]
  intro c hc
  rcases etfAskBlock_mem s a0 c hc with ⟨j, rfl⟩ | ⟨i, p, v, hv, rfl⟩ <;> simp [isBuyInsert]

/-- The bid block emits at most one buy insert. -/
theorem etfBidBlock_buy_count (s : EngineState) (b0 : Nat) :
    ((etfBidBlock s b0).2.countP isBuyInsert) ≤ 1 := by
  rcases etfBidBlock_shape s b0 with he | ⟨j, he⟩ | ⟨i, p, v, hv, he | ⟨j, he⟩⟩ <;>
    rw [he] <;> simp [List.countP_cons, isBuyInsert]

/-- The bid block emits no sell insert. -/
theorem etfBidBlock_sell_count (s : EngineState) (b0 : Nat) :
    ((etfBidBlock s b0).2.countP isSellInsert) = 0 := by
  rw [List.countP_eq_zero]
  intro c hc
  rcases etfBidBlock_mem s b0 c hc with ⟨j, rfl⟩ | ⟨i, p, v, hv, rfl⟩ <;> simp [isSellInsert]

/-- With no current ask and no reference ask, the ask block does nothing. -/
theorem etfAskBlock_noop (s : EngineState) (a0 : Nat) (h1 : s.mAskId = 0)
    (h2 : s.futAskPrice = 0) : etfAskBlock s a0 = (s, []) := by
  unfold etfAskBlock
  rw [if_pos h1, if_neg (by simp [h2])]

/-- With no current bid and no reference bid, the bid block does nothing. -/
theorem etfBidBlock_noop (s : EngineState) (b0 : Nat) (h1 : s.mBidId = 0)
    (h2 : s.futBidPrice = 0) : etfBidBlock s b0 = (s, []) := by
  unfold etfBidBlock
  rw [if_pos h1, if_neg (by simp [h2])]

/-! ## Claim C10 -/

/-- C10: processing any trade-tick event — either instrument, any sequence
number, any book contents — leaves every field of the engine state unchanged
and emits no gateway command (the handler body is empty in the source). -/
theorem C10_trade_ticks_noop (s : EngineState) (i : Instrument) (sq : Nat)
    (ap av bp bv : Fin 5 → Nat) :
    step s (Event.tradeTicks i sq ap av bp bv) = (s, []) := rfl

/-! ## Claim C9 -/

/-- C9: a duplicate order-status event with zero remaining volume, for an
order id no longer in the active index, changes no state and emits nothing.
(The two tracking hypotheses — the current order ids, when set, are in the
active index — hold in every reachable state: ids enter `mAskId`/`mBidId`
and the index together and leave together.) -/
theorem C9_duplicate_status_noop (s : EngineState) (id fillVolume : Nat) (fees : Int)
    (hA : s.mAskId ≠ 0 → s.mAskId ∈ s.mAsks)
    (hB : s.mBidId ≠ 0 → s.mBidId ∈ s.mBids)
    (h1 : id ∉ s.mAsks) (h2 : id ∉ s.mBids) :
    orderStatusMessageHandler s id fillVolume 0 fees = (s, []) := by
  unfold orderStatusMessageHandler
  rw [if_pos rfl]
  dsimp only
  by_cases h3 : id = s.mAskId
  · have h0 : s.mAskId = 0 := by
      by_contra hn
      exact h1 (h3 ▸ hA hn)
    rw [if_pos h3]
    have e1 : ({ s with mAskId := 0 } : EngineState) = s := by rw [← h0]
    rw [e1, setErase_of_not_mem h1, setErase_of_not_mem h2]
  · rw [if_neg h3]
    by_cases h4 : id = s.mBidId
    · have h0 : s.mBidId = 0 := by
        by_contra hn
        exact h2 (h4 ▸ hB hn)
      rw [if_pos h4]
      have e1 : ({ s with mBidId := 0 } : EngineState) = s := by rw [← h0]
      rw [e1, setErase_of_not_mem h1, setErase_of_not_mem h2]
    · rw [if_neg h4]
      rw [setErase_of_not_mem h1, setErase_of_not_mem h2]

/-- Witness for C9 at a concrete state and id. -/
theorem C9_duplicate_status_noop_witness :
    orderStatusMessageHandler askLiveState 42 0 0 0 = (askLiveState, []) :=
  C9_duplicate_status_noop askLiveState 42 0 0 (by decide) (by decide) (by decide) (by decide)

/-! ## Claim C1 -/

/-- C1 (amended): a fill of a known ask issues exactly one buy hedge at
`MAX_ASK_NEAREST_TICK` — the highest representable tick, not the lowest —
and a fill of a known bid exactly one sell hedge at `MIN_BID_NEARST_TICK` —
the lowest representable tick, not the highest — each sized to the fill
volume; fills of unknown ids issue nothing. -/
theorem C1_hedge_pricing (s : EngineState) (id p v : Nat) :
    (orderFilledMessageHandler s id p v).2 =
      (if id ∈ s.mAsks then
        [Command.hedgeOrder (uadd s.mNextMessageId 1) Side.buy MAX_ASK_NEAREST_TICK v]
      else if id ∈ s.mBids then
        [Command.hedgeOrder (uadd s.mNextMessageId 1) Side.sell MIN_BID_NEARST_TICK v]
      else []) ∧
    MAX_ASK_NEAREST_TICK = specHighestRepresentableTick ∧
    MIN_BID_NEARST_TICK = specLowestRepresentableTick := by
  refine ⟨?_, by decide, by decide⟩
  unfold orderFilledMessageHandler
  by_cases h1 : id ∈ s.mAsks
  · rw [if_pos h1, if_pos h1]
  · rw [if_neg h1, if_neg h1]
    by_cases h2 : id ∈ s.mBids
    · rw [if_pos h2, if_pos h2]
    · rw [if_neg h2, if_neg h2]

/-- C1 (counterexample): in a run where our resting ask (id 1) fills, the
emitted hedge is a buy at `MAX_ASK_NEAREST_TICK` (2147483600), not at the
lowest representable tick (100) that the claim's pricing rule requires. -/
theorem C1_counterexample :
    ¬ ((commandsFrom initState hedgeTrace).all hedgePricedAsSpecC1 = true) := by decide

/-! ## Claim C2 -/

/-- C2 (amended): hedge orders are issued exactly by fill events for known
order ids — one hedge, sized to the fill, immediately on the fill — and by
no other event; the engine keeps no unhedged-volume timer. -/
theorem C2_hedge_exactly_on_fill (s : EngineState) (e : Event) :
    (step s e).2.filter isHedge =
      (match e with
       | Event.orderFilled id _ v =>
           if id ∈ s.mAsks then
             [Command.hedgeOrder (uadd s.mNextMessageId 1) Side.buy MAX_ASK_NEAREST_TICK v]
           else if id ∈ s.mBids then
             [Command.hedgeOrder (uadd s.mNextMessageId 1) Side.sell MIN_BID_NEARST_TICK v]
           else []
       | _ => []) := by
  cases e with
  | orderBook i sq ap av bp bv =>
      cases i with
      | future =>
          apply List.filter_eq_nil.mpr
          intro c hc
          rcases orderBookFuture_mem s (ap 0) (av 0) (bp 0) (bv 0) c hc with ⟨j, rfl⟩
          simp [isHedge]
      | etf =>
          apply List.filter_eq_nil.mpr
          intro c hc
          have hc' : c ∈ (etfAskBlock s (ap 0)).2 ∨ c ∈ (etfBidBlock (etfAskBlock s (ap 0)).1 (bp 0)).2 := by
            simpa [step, orderBookMessageHandler, orderBookEtf, List.mem_append] using hc
          rcases hc' with hc' | hc'
          · rcases etfAskBlock_mem _ _ c hc' with ⟨j, rfl⟩ | ⟨i', p', v', _, rfl⟩ <;>
              simp [isHedge]
          · rcases etfBidBlock_mem _ _ c hc' with ⟨j, rfl⟩ | ⟨i', p', v', _, rfl⟩ <;>
              simp [isHedge]
  | orderFilled id p v =>
      show (orderFilledMessageHandler s id p v).2.filter isHedge =
        (if id ∈ s.mAsks then
          [Command.hedgeOrder (uadd s.mNextMessageId 1) Side.buy MAX_ASK_NEAREST_TICK v]
        else if id ∈ s.mBids then
          [Command.hedgeOrder (uadd s.mNextMessageId 1) Side.sell MIN_BID_NEARST_TICK v]
        else [])
      unfold orderFilledMessageHandler
      by_cases h1 : id ∈ s.mAsks
      · rw [if_pos h1, if_pos h1]
        rfl
      · rw [if_neg h1, if_neg h1]
        by_cases h2 : id ∈ s.mBids
        · rw [if_pos h2, if_pos h2]
          rfl
        · rw [if_neg h2, if_neg h2]
          rfl
  | orderStatus id f r fees =>
      show (orderStatusMessageHandler s id f r fees).2.filter isHedge = _
      rw [orderStatus_no_cmds]
      rfl
  | hedgeFilled id p v => rfl
  | tradeTicks i sq ap av bp bv => rfl
  | errorMessage id text =>
      show (errorMessageHandler s id text).2.filter isHedge = _
      rw [errorMessage_no_cmds]
      rfl

/-- C2 (counterexample): a hedge order is emitted directly while processing
a fill event, which the claim's timer discipline forbids. -/
theorem C2_counterexample :
    ¬ (hedgeOnSomeFillStep initState hedgeTrace = false) := by decide

/-! ## Claim C3 -/

/-- C3 (amended): each processed event submits at most one new order per
side — at most one sell insert and at most one buy insert; the superseded
order of a cancel/replace nevertheless stays in the active index until its
terminal status, so the index itself may hold several live orders per side. -/
theorem C3_one_insert_per_side (s : EngineState) (e : Event) :
    ((step s e).2.countP isSellInsert) ≤ 1 ∧ ((step s e).2.countP isBuyInsert) ≤ 1 := by
  cases e with
  | orderBook i sq ap av bp bv =>
      cases i with
      | future =>
          have he : (step s (Event.orderBook Instrument.future sq ap av bp bv)).2 =
              (orderBookFuture s (ap 0) (av 0) (bp 0) (bv 0)).2 := rfl
          have hz : ∀ q : Command → Bool, (∀ j : Nat, q (Command.cancelOrder j) = false) →
              ((orderBookFuture s (ap 0) (av 0) (bp 0) (bv 0)).2.countP q) = 0 := by
            intro q hq
            apply List.countP_eq_zero.mpr
            intro c hc
            rcases orderBookFuture_mem s (ap 0) (av 0) (bp 0) (bv 0) c hc with ⟨j, rfl⟩
            simp [hq j]
          rw [he]
          constructor
          · rw [hz isSellInsert (fun j => rfl)]
            omega
          · rw [hz isBuyInsert (fun j => rfl)]
            omega
      | etf =>
          have he : (step s (Event.orderBook Instrument.etf sq ap av bp bv)).2 =
              (etfAskBlock s (ap 0)).2 ++ (etfBidBlock (etfAskBlock s (ap 0)).1 (bp 0)).2 := rfl
          rw [he, List.countP_append, List.countP_append]
          constructor
          · have h1 := etfAskBlock_sell_count s (ap 0)
            have h2 := etfBidBlock_sell_count (etfAskBlock s (ap 0)).1 (bp 0)
            omega
          · have h1 := etfAskBlock_buy_count s (ap 0)
            have h2 := etfBidBlock_buy_count (etfAskBlock s (ap 0)).1 (bp 0)
            omega
  | orderFilled id p v =>
      have he : (step s (Event.orderFilled id p v)).2 = (orderFilledMessageHandler s id p v).2 := rfl
      rw [he]
      unfold orderFilledMessageHandler
      by_cases h1 : id ∈ s.mAsks
      · rw [if_pos h1]
        simp [List.countP_cons, isSellInsert, isBuyInsert]
      · rw [if_neg h1]
        by_cases h2 : id ∈ s.mBids
        · rw [if_pos h2]
          simp [List.countP_cons, isSellInsert, isBuyInsert]
        · rw [if_neg h2]
          simp
  | orderStatus id f r fees =>
      have he : (step s (Event.orderStatus id f r fees)).2 = [] := orderStatus_no_cmds s id f r fees
      rw [he]
      simp
  | hedgeFilled id p v => exact ⟨Nat.zero_le 1, Nat.zero_le 1⟩
  | tradeTicks i sq ap av bp bv => exact ⟨Nat.zero_le 1, Nat.zero_le 1⟩
  | errorMessage id text =>
      have he : (step s (Event.errorMessage id text)).2 = [] := errorMessage_no_cmds s id text
      rw [he]
      simp

/-- C3 (counterexample): after two cancel/replace cycles the active ask
index holds three order ids, none of which has reached a terminal status —
the claimed one-per-side invariant fails while cancels are in flight. -/
theorem C3_counterexample :
    ¬ (∀ tr : List Event, (runFrom initState tr).mAsks.length ≤ 1 ∧
        (runFrom initState tr).mBids.length ≤ 1) := by
  intro h
  exact absurd (h raceTrace).1 (by decide)

/-! ## Claim C5 -/

/-- C5 (amended): quotes submitted through `makeAsk`/`makeBid` (the ASK 1,
ASK 3, BID 1 and BID 3 paths) respect the reference boundary — sell inserts
are priced at or above `futAskPrice + FUT_CLEARANCE` and buy inserts at or
below `futBidPrice - FUT_CLEARANCE`; the ASK 2 / BID 2 cancel-replace paths
price purely off the ETF book and can cross the boundary. -/
theorem C5_maker_quotes_respect_reference (s : EngineState) (a0 b0 : Nat)
    (hA : s.futAskPrice + 3 * FUT_CLEARANCE < U64)
    (hB1 : 3 * TICK_SIZE_IN_CENTS ≤ s.futBidPrice) (hB2 : s.futBidPrice < U64) :
    (∀ i p v l, Command.insertOrder i Side.sell p v l ∈ (makeAsk s a0).2 →
       uadd s.futAskPrice FUT_CLEARANCE ≤ p) ∧
    (∀ i p v l, Command.insertOrder i Side.buy p v l ∈ (makeBid s b0).2 →
       p ≤ usub s.futBidPrice FUT_CLEARANCE) := by
  have hFC : FUT_CLEARANCE = 100 := rfl
  have hTC : TICK_SIZE_IN_CENTS = 100 := rfl
  constructor
  · intro i p v l hm
    rcases makeAsk_shape s a0 with ⟨_, he⟩ | ⟨_, he⟩ <;> rw [he] at hm
    · exact absurd hm (List.not_mem_nil _)
    · simp only [List.mem_singleton, Command.insertOrder.injEq] at hm
      obtain ⟨_, _, hp, _⟩ := hm
      rw [hp]
      unfold getMakeAskPrice
      by_cases h0 : a0 = 0
      · rw [if_pos h0]
        rw [uadd_eq_add (by omega), uadd_eq_add (by omega)]
        omega
      · rw [if_neg h0]
        exact le_max_left _ _
  · intro i p v l hm
    rcases makeBid_shape s b0 with ⟨_, he⟩ | ⟨_, he⟩ <;> rw [he] at hm
    · exact absurd hm (List.not_mem_nil _)
    · simp only [List.mem_singleton, Command.insertOrder.injEq] at hm
      obtain ⟨_, _, hp, _⟩ := hm
      rw [hp]
      unfold getMakeBidPrice
      by_cases h0 : b0 = 0
      · rw [if_pos h0]
        rw [usub_eq_sub (by omega) hB2, usub_eq_sub (by omega) hB2]
        omega
      · rw [if_neg h0]
        exact min_le_left _ _
/-- Witness for C5: with reference ask 10000 and best ETF ask 10500,
`makeAsk` submits at 10400, which is at least 10000 + 100. -/
theorem C5_maker_quotes_respect_reference_witness :
    uadd refState.futAskPrice FUT_CLEARANCE ≤ 10400 :=
  (C5_maker_quotes_respect_reference refState 10500 9000 (by decide) (by decide)
    (by decide)).1 1 10400 50 Lifespan.goodForDay (by decide)

/-- C5 (counterexample): after the reference ask jumps to 20000 with our
stale ask still current, the ASK 2 path inserts a sell at 10900, through the
reference boundary 20100 — the claimed "never quotes through reference ±
clearance on any code path" fails. -/
theorem C5_counterexample :
    ¬ (quotesRespectReference initState boundaryTrace = true) := by decide

/-! ## Claim C6 -/

/-- C6 (amended): `makeAsk`, `makeBid` and `replaceCancelledTrade` suppress
submission when the computed volume is zero (or does not exceed the
remaining volume), emitting nothing and leaving the state unchanged; the
ASK 2 / BID 2 cancel-replace paths perform no such check. -/
theorem C6_zero_volume_suppressed (s : EngineState) (p rem : Nat) :
    (maxAskVol s = 0 → makeAsk s p = (s, [])) ∧
    (maxBidVol s = 0 → makeBid s p = (s, [])) ∧
    (maxAskVol s ≤ rem → replaceCancelledTrade s true rem = (s, [])) ∧
    (maxBidVol s ≤ rem → replaceCancelledTrade s false rem = (s, [])) := by
  refine ⟨fun h => ?_, fun h => ?_, fun h => ?_, fun h => ?_⟩
  · simp [makeAsk, h]
  · simp [makeBid, h]
  · simp [replaceCancelledTrade, h]
  · simp [replaceCancelledTrade, h]

/-- Witness for C6 at the short position limit. -/
theorem C6_zero_volume_suppressed_witness :
    maxAskVol shortLimitState = 0 ∧ makeAsk shortLimitState 10000 = (shortLimitState, []) :=
  ⟨by decide, (C6_zero_volume_suppressed shortLimitState 10000 0).1 (by decide)⟩

/-- C6 (counterexample): after the cancel-raced asks both fill (position
-100), the ASK 2 path submits an insert with volume 0 — the claim that the
engine never sends a zero-volume insert fails. -/
theorem C6_counterexample :
    ¬ (hasZeroVolInsert (commandsFrom initState zeroVolTrace) = false) := by decide

/-! ## Claim C7 -/

/-- C7 (amended): a zero stored reference price suppresses quoting on a side
only when that side has no current order (`mAskId = 0` / `mBidId = 0`); the
ASK 2/3 and BID 2/3 replacement paths do not re-check the reference. -/
theorem C7_zero_reference_suppresses_new_quotes (s : EngineState) (a0 b0 : Nat) :
    (s.mAskId = 0 → s.futAskPrice = 0 →
      (orderBookEtf s a0 b0).2.countP isSellInsert = 0) ∧
    (s.mBidId = 0 → s.futBidPrice = 0 →
      (orderBookEtf s a0 b0).2.countP isBuyInsert = 0) := by
  have he : (orderBookEtf s a0 b0).2 =
      (etfAskBlock s a0).2 ++ (etfBidBlock (etfAskBlock s a0).1 b0).2 := rfl
  constructor
  · intro h1 h2
    rw [he, List.countP_append, etfAskBlock_noop s a0 h1 h2]
    have hz := etfBidBlock_sell_count (etfAskBlock s a0).1 b0
    rw [etfAskBlock_noop s a0 h1 h2] at hz
    simpa using hz
  · intro h1 h2
    have hb1 : (etfAskBlock s a0).1.mBidId = 0 := by
      rw [(etfAskBlock_fields s a0).2.1, h1]
    have hb2 : (etfAskBlock s a0).1.futBidPrice = 0 := by
      rw [(etfAskBlock_fields s a0).2.2.2.2.2, h2]
    rw [he, List.countP_append, etfBidBlock_noop _ b0 hb1 hb2]
    have hz := etfAskBlock_buy_count s a0
    simpa using hz

/-- Witness for C7: with no current ask and a zero reference ask (but a live
reference bid), the ETF book handler emits no sell insert. -/
theorem C7_zero_reference_suppresses_new_quotes_witness :
    (orderBookEtf noRefAskState 10500 9000).2.countP isSellInsert = 0 :=
  (C7_zero_reference_suppresses_new_quotes noRefAskState 10500 9000).1 rfl rfl

/-- C7 (counterexample): after the reference ask side empties
(`futAskPrice = 0`) while our ask is still current, the ASK 2 path submits a
sell insert — quoting is not suppressed on that side. -/
theorem C7_counterexample :
    ¬ (noQuoteOnZeroReference initState zeroRefTrace = true) := by decide

/-! ## Claim C8 -/

/-- C8 (amended): the helper `replaceCancelledTrade` submits the replacement
with volume equal to the freshly recomputed capacity minus its
remaining-volume argument, and skips it when the capacity does not exceed
that argument; however, no handler ever invokes it — the status handler
emits nothing, and the live cancel/replace paths (ASK 2 / BID 2) submit the
replacement immediately at full recomputed capacity. -/
theorem C8_replacement_reduction (s : EngineState) (rem id f r : Nat) (fees : Int) :
    (rem < maxAskVol s →
      (replaceCancelledTrade s true rem).2 =
        [Command.insertOrder (uadd s.mNextMessageId 1) Side.sell
          s.mMakeAskAwaitingCancelPrice (maxAskVol s - rem) Lifespan.goodForDay]) ∧
    (maxAskVol s ≤ rem → (replaceCancelledTrade s true rem).2 = []) ∧
    (rem < maxBidVol s →
      (replaceCancelledTrade s false rem).2 =
        [Command.insertOrder (uadd s.mNextMessageId 1) Side.buy
          s.mMakeBidAwaitingCancelPrice (maxBidVol s - rem) Lifespan.goodForDay]) ∧
    (maxBidVol s ≤ rem → (replaceCancelledTrade s false rem).2 = []) ∧
    (orderStatusMessageHandler s id f r fees).2 = [] := by
  refine ⟨fun h => ?_, fun h => ?_, fun h => ?_, fun h => ?_, orderStatus_no_cmds s id f r fees⟩
  · simp [replaceCancelledTrade, Nat.not_le.mpr h]
  · simp [replaceCancelledTrade, h]
  · simp [replaceCancelledTrade, Nat.not_le.mpr h]
  · simp [replaceCancelledTrade, h]

/-- Witness for C8: with 30 lots sold and no remaining volume reported, the
helper would submit the awaited replacement at capacity 35. -/
theorem C8_replacement_reduction_witness :
    (replaceCancelledTrade rrState true 0).2 =
      [Command.insertOrder 1 Side.sell 10900 35 Lifespan.goodForDay] :=
  ((C8_replacement_reduction rrState 0 0 0 0 0).1 (by decide)).trans (by decide)

/-- C8 (counterexample): in the cancel/fill race of `cancelRaceFillTrace`
(cancel requested on the 50-lot ask 1, 30 lots then fill), the only inserts
the engine ever submits are the original ask and its replacement at the
full stale capacity 50; no insert at the reduced volume (20, or 5 for the
freshly recomputed capacity) is ever submitted, contradicting the claimed
reduction-by-filled-amount. -/
theorem C8_counterexample :
    (commandsFrom initState cancelRaceFillTrace).filter isInsert =
      [Command.insertOrder 1 Side.sell 10400 50 Lifespan.goodForDay,
       Command.insertOrder 2 Side.sell 10900 50 Lifespan.goodForDay] ∧
    ¬ ((commandsFrom initState cancelRaceFillTrace).any isReducedReplacement = true) := by
  constructor
  · decide
  · decide

/-! ## Lemmas for the position bound (claim C4) -/

theorem toLong_eq {v : Nat} (h : v < 2 ^ 63) : toLong v = (v : Int) := by
  unfold toLong
  rw [if_pos h]

theorem u64ofInt_cast {i : Int} (h1 : 0 ≤ i) (h2 : i < (U64 : Int)) :
    (u64ofInt i : Int) = i := by
  unfold u64ofInt
  rw [Int.emod_eq_of_lt h1 h2, Int.toNat_of_nonneg h1]

/-- Within the position limits, the ask capacity never exceeds the short
headroom. -/
theorem maxAskVol_le (s : EngineState)
    (h1 : -(POSITION_LIMIT : Int) ≤ s.etfPosition)
    (h2 : s.etfPosition ≤ (POSITION_LIMIT : Int)) :
    (maxAskVol s : Int) ≤ (POSITION_LIMIT : Int) + s.etfPosition := by
  have hP : (POSITION_LIMIT : Int) = 100 := rfl
  have hU : (U64 : Int) = 18446744073709551616 := by norm_num [U64]
  have hn : (u64ofInt ((POSITION_LIMIT : Int) + s.etfPosition) : Int) =
      (POSITION_LIMIT : Int) + s.etfPosition := u64ofInt_cast (by omega) (by omega)
  have hd : (u64ofInt ((POSITION_LIMIT : Int) + s.etfPosition) / 2) ≤
      u64ofInt ((POSITION_LIMIT : Int) + s.etfPosition) := Nat.div_le_self _ _
  unfold maxAskVol
  omega

/-- Within the position limits, the bid capacity never exceeds the long
headroom. -/
theorem maxBidVol_le (s : EngineState)
    (h1 : -(POSITION_LIMIT : Int) ≤ s.etfPosition)
    (h2 : s.etfPosition ≤ (POSITION_LIMIT : Int)) :
    (maxBidVol s : Int) ≤ (POSITION_LIMIT : Int) - s.etfPosition := by
  have hP : (POSITION_LIMIT : Int) = 100 := rfl
  have hU : (U64 : Int) = 18446744073709551616 := by norm_num [U64]
  have hn : (u64ofInt ((POSITION_LIMIT : Int) - s.etfPosition) : Int) =
      (POSITION_LIMIT : Int) - s.etfPosition := u64ofInt_cast (by omega) (by omega)
  have hd : (u64ofInt ((POSITION_LIMIT : Int) - s.etfPosition) / 2) ≤
      u64ofInt ((POSITION_LIMIT : Int) - s.etfPosition) := Nat.div_le_self _ _
  unfold maxBidVol
  omega

/-- Every command of the ETF book handler is a cancel, a sell insert within
the ask capacity of the entry state, or a buy insert within the bid
capacity of the entry state. -/
theorem orderBookEtf_mem (s : EngineState) (a0 b0 : Nat) (c : Command)
    (hc : c ∈ (orderBookEtf s a0 b0).2) :
    (∃ j, c = Command.cancelOrder j) ∨
    (∃ i p v, v ≤ maxAskVol s ∧ c = Command.insertOrder i Side.sell p v Lifespan.goodForDay) ∨
    (∃ i p v, v ≤ maxBidVol s ∧ c = Command.insertOrder i Side.buy p v Lifespan.goodForDay) := by
  have he : (orderBookEtf s a0 b0).2 =
      (etfAskBlock s a0).2 ++ (etfBidBlock (etfAskBlock s a0).1 b0).2 := rfl
  rw [he, List.mem_append] at hc
  rcases hc with hc | hc
  · rcases etfAskBlock_mem s a0 c hc with ⟨j, rfl⟩ | ⟨i, p, v, hv, rfl⟩
    · exact Or.inl ⟨j, rfl⟩
    · exact Or.inr (Or.inl ⟨i, p, v, hv, rfl⟩)
  · rcases etfBidBlock_mem (etfAskBlock s a0).1 b0 c hc with ⟨j, rfl⟩ | ⟨i, p, v, hv, rfl⟩
    · exact Or.inl ⟨j, rfl⟩
    · refine Or.inr (Or.inr ⟨i, p, v, ?_, rfl⟩)
      have hpos : (etfAskBlock s a0).1.etfPosition = s.etfPosition :=
        (etfAskBlock_fields s a0).1
      have : maxBidVol (etfAskBlock s a0).1 = maxBidVol s := by
        unfold maxBidVol
        rw [hpos]
      rw [← this]
      exact hv

/-- Any volume among the sell inserts of an ETF book step is within the ask
capacity of the entry state. -/
theorem orderBookEtf_sellVols (s : EngineState) (a0 b0 v : Nat)
    (hv : v ∈ sellInsertVols ((orderBookEtf s a0 b0).2)) : v ≤ maxAskVol s := by
  unfold sellInsertVols at hv
  rw [List.mem_filterMap] at hv
  obtain ⟨c, hc, hf⟩ := hv
  rcases orderBookEtf_mem s a0 b0 c hc with ⟨j, rfl⟩ | ⟨i, p, w, hw, rfl⟩ | ⟨i, p, w, hw, rfl⟩
  · simp at hf
  · simp only [Option.some.injEq] at hf
    rw [← hf]
    exact hw
  · simp at hf

/-- Any volume among the buy inserts of an ETF book step is within the bid
capacity of the entry state. -/
theorem orderBookEtf_buyVols (s : EngineState) (a0 b0 v : Nat)
    (hv : v ∈ buyInsertVols ((orderBookEtf s a0 b0).2)) : v ≤ maxBidVol s := by
  unfold buyInsertVols at hv
  rw [List.mem_filterMap] at hv
  obtain ⟨c, hc, hf⟩ := hv
  rcases orderBookEtf_mem s a0 b0 c hc with ⟨j, rfl⟩ | ⟨i, p, w, hw, rfl⟩ | ⟨i, p, w, hw, rfl⟩
  · simp at hf
  · simp at hf
  · simp only [Option.some.injEq] at hf
    rw [← hf]
    exact hw

/-- The ETF book handler does not change the position. -/
theorem orderBookEtf_pos (s : EngineState) (a0 b0 : Nat) :
    (orderBookEtf s a0 b0).1.etfPosition = s.etfPosition := by
  have he : (orderBookEtf s a0 b0).1 = (etfBidBlock (etfAskBlock s a0).1 b0).1 := rfl
  rw [he, (etfBidBlock_fields (etfAskBlock s a0).1 b0).1, (etfAskBlock_fields s a0).1]

/-- The status handler does not change the position. -/
theorem orderStatus_pos (s : EngineState) (id f r : Nat) (fees : Int) :
    (orderStatusMessageHandler s id f r fees).1.etfPosition = s.etfPosition := by
  unfold orderStatusMessageHandler
  split
  · dsimp only
    split
    · rfl
    · split <;> rfl
  · rfl

/-- The error handler does not change the position. -/
theorem errorMessage_pos (s : EngineState) (id : Nat) (msg : String) :
    (errorMessageHandler s id msg).1.etfPosition = s.etfPosition := by
  unfold errorMessageHandler
  split
  · exact orderStatus_pos s id 0 0 0
  · rfl

/-- The ghost invariant is preserved by every good event. -/
theorem ghostInv_step (g : GState) (e : Event) (hi : ghostInv g)
    (hg : goodEventB g e = true) : ghostInv (gstep g e) := by
  have hP : (POSITION_LIMIT : Int) = 100 := rfl
  obtain ⟨hi1, hi2⟩ := hi
  cases e with
  | orderBook i sq ap av bp bv =>
      cases i with
      | future =>
          have hpos : (gstep g (Event.orderBook Instrument.future sq ap av bp bv)).engine.etfPosition
              = g.engine.etfPosition := rfl
          have har : (gstep g (Event.orderBook Instrument.future sq ap av bp bv)).askRem
              = g.askRem := rfl
          have hbr : (gstep g (Event.orderBook Instrument.future sq ap av bp bv)).bidRem
              = g.bidRem := rfl
          exact ⟨by rw [hpos, har]; exact hi1, by rw [hpos, hbr]; exact hi2⟩
      | etf =>
          have hb1 : (0:Int) ≤ (g.askRem : Int) := Int.natCast_nonneg _
          have hb2 : (0:Int) ≤ (g.bidRem : Int) := Int.natCast_nonneg _
          have hpos : (gstep g (Event.orderBook Instrument.etf sq ap av bp bv)).engine.etfPosition
              = g.engine.etfPosition := orderBookEtf_pos g.engine (ap 0) (bp 0)
          have har : (gstep g (Event.orderBook Instrument.etf sq ap av bp bv)).askRem
              = (sellInsertVols ((orderBookEtf g.engine (ap 0) (bp 0)).2)).headD g.askRem := rfl
          have hbr : (gstep g (Event.orderBook Instrument.etf sq ap av bp bv)).bidRem
              = (buyInsertVols ((orderBookEtf g.engine (ap 0) (bp 0)).2)).headD g.bidRem := rfl
          constructor
          · rw [hpos, har]
            rcases hsv : sellInsertVols ((orderBookEtf g.engine (ap 0) (bp 0)).2) with _ | ⟨v, rest⟩
            · exact hi1
            · have hv : v ≤ maxAskVol g.engine :=
                orderBookEtf_sellVols g.engine (ap 0) (bp 0) v
                  (by rw [hsv]; exact List.mem_cons_self v rest)
              have hbound := maxAskVol_le g.engine (by omega) (by omega)
              simp only [List.headD_cons]
              omega
          · rw [hpos, hbr]
            rcases hbv : buyInsertVols ((orderBookEtf g.engine (ap 0) (bp 0)).2) with _ | ⟨v, rest⟩
            · exact hi2
            · have hv : v ≤ maxBidVol g.engine :=
                orderBookEtf_buyVols g.engine (ap 0) (bp 0) v
                  (by rw [hbv]; exact List.mem_cons_self v rest)
              have hbound := maxBidVol_le g.engine (by omega) (by omega)
              simp only [List.headD_cons]
              omega
  | orderFilled id p v =>
      simp only [goodEventB, Bool.and_eq_true, Bool.or_eq_true, decide_eq_true_eq] at hg
      obtain ⟨hv63, hcase⟩ := hg
      rcases hcase with ⟨⟨hida, hmem⟩, hrem⟩ | ⟨⟨⟨hidb, hnmem⟩, hmem⟩, hrem⟩
      · have hpos : (gstep g (Event.orderFilled id p v)).engine.etfPosition
            = g.engine.etfPosition - v := by
          have h1 : (gstep g (Event.orderFilled id p v)).engine
              = (orderFilledMessageHandler g.engine id p v).1 := rfl
          rw [h1]
          unfold orderFilledMessageHandler
          rw [if_pos hmem]
          dsimp only
          rw [toLong_eq hv63]
        have har : (gstep g (Event.orderFilled id p v)).askRem = g.askRem - v := by
          have h1 : (gstep g (Event.orderFilled id p v)).askRem
              = if id = g.engine.mAskId ∧ id ∈ g.engine.mAsks then g.askRem - v
                else g.askRem := rfl
          rw [h1, if_pos ⟨hida, hmem⟩]
        have hbr : (gstep g (Event.orderFilled id p v)).bidRem = g.bidRem := by
          have h1 : (gstep g (Event.orderFilled id p v)).bidRem
              = if id = g.engine.mBidId ∧ id ∉ g.engine.mAsks ∧ id ∈ g.engine.mBids
                then g.bidRem - v else g.bidRem := rfl
          rw [h1, if_neg (by intro hcon; exact hcon.2.1 hmem)]
        refine ⟨?_, ?_⟩
        · rw [hpos, har]
          have hc : ((g.askRem - v : Nat) : Int) = (g.askRem : Int) - v :=
            Int.ofNat_sub hrem
          omega
        · rw [hpos, hbr]
          have : (0:Int) ≤ (v : Int) := Int.natCast_nonneg _
          omega
      · have hpos : (gstep g (Event.orderFilled id p v)).engine.etfPosition
            = g.engine.etfPosition + v := by
          have h1 : (gstep g (Event.orderFilled id p v)).engine
              = (orderFilledMessageHandler g.engine id p v).1 := rfl
          rw [h1]
          unfold orderFilledMessageHandler
          rw [if_neg hnmem, if_pos hmem]
          dsimp only
          rw [toLong_eq hv63]
        have har : (gstep g (Event.orderFilled id p v)).askRem = g.askRem := by
          have h1 : (gstep g (Event.orderFilled id p v)).askRem
              = if id = g.engine.mAskId ∧ id ∈ g.engine.mAsks then g.askRem - v
                else g.askRem := rfl
          rw [h1, if_neg (by intro hcon; exact hnmem hcon.2)]
        have hbr : (gstep g (Event.orderFilled id p v)).bidRem = g.bidRem - v := by
          have h1 : (gstep g (Event.orderFilled id p v)).bidRem
              = if id = g.engine.mBidId ∧ id ∉ g.engine.mAsks ∧ id ∈ g.engine.mBids
                then g.bidRem - v else g.bidRem := rfl
          rw [h1, if_pos ⟨hidb, hnmem, hmem⟩]
        refine ⟨?_, ?_⟩
        · rw [hpos, har]
          have : (0:Int) ≤ (v : Int) := Int.natCast_nonneg _
          omega
        · rw [hpos, hbr]
          have hc : ((g.bidRem - v : Nat) : Int) = (g.bidRem : Int) - v :=
            Int.ofNat_sub hrem
          omega
  | orderStatus id f r fees =>
      have hpos : (gstep g (Event.orderStatus id f r fees)).engine.etfPosition
          = g.engine.etfPosition := orderStatus_pos g.engine id f r fees
      have har : (gstep g (Event.orderStatus id f r fees)).askRem
          = if r = 0 ∧ id = g.engine.mAskId then 0 else g.askRem := rfl
      have hbr : (gstep g (Event.orderStatus id f r fees)).bidRem
          = if r = 0 ∧ id ≠ g.engine.mAskId ∧ id = g.engine.mBidId then 0
            else g.bidRem := rfl
      have hb1 : (0:Int) ≤ (g.askRem : Int) := Int.natCast_nonneg _
      have hb2 : (0:Int) ≤ (g.bidRem : Int) := Int.natCast_nonneg _
      constructor
      · rw [hpos, har]
        split
        · simp only [Nat.cast_zero]
          omega
        · exact hi1
      · rw [hpos, hbr]
        split
        · simp only [Nat.cast_zero]
          omega
        · exact hi2
  | hedgeFilled id p v => exact ⟨hi1, hi2⟩
  | tradeTicks i sq ap av bp bv => exact ⟨hi1, hi2⟩
  | errorMessage id text =>
      have hpos : (gstep g (Event.errorMessage id text)).engine.etfPosition
          = g.engine.etfPosition := errorMessage_pos g.engine id text
      have har : (gstep g (Event.errorMessage id text)).askRem
          = if id ≠ 0 ∧ (id ∈ g.engine.mAsks ∨ id ∈ g.engine.mBids) ∧ id = g.engine.mAskId
            then 0 else g.askRem := rfl
      have hbr : (gstep g (Event.errorMessage id text)).bidRem
          = if id ≠ 0 ∧ (id ∈ g.engine.mAsks ∨ id ∈ g.engine.mBids) ∧ id ≠ g.engine.mAskId ∧
               id = g.engine.mBidId
            then 0 else g.bidRem := rfl
      have hb1 : (0:Int) ≤ (g.askRem : Int) := Int.natCast_nonneg _
      have hb2 : (0:Int) ≤ (g.bidRem : Int) := Int.natCast_nonneg _
      constructor
      · rw [hpos, har]
        split
        · simp only [Nat.cast_zero]
          omega
        · exact hi1
      · rw [hpos, hbr]
        split
        · simp only [Nat.cast_zero]
          omega
        · exact hi2

/-- The ghost run drives the engine exactly as the real run does. -/
theorem grun_engine (tr : List Event) : ∀ g : GState,
    (grun g tr).engine = runFrom g.engine tr := by
  induction tr with
  | nil => intro g; rfl
  | cons e es ih =>
      intro g
      have h1 : grun g (e :: es) = grun (gstep g e) es := rfl
      have h2 : runFrom g.engine (e :: es) = runFrom (step g.engine e).1 es := rfl
      have h3 : (gstep g e).engine = (step g.engine e).1 := rfl
      rw [h1, h2, ih (gstep g e), h3]

/-! ## Claim C4 -/

/-- C4 (amended): `|primaryPosition| ≤ POSITION_LIMIT` holds after any event
sequence in which every fill targets the engine's *current* order on its
side and stays within that order's unfilled submitted volume (`goodRunB`);
fills on superseded cancel-raced orders — which the engine still accepts —
can push the position beyond the limit. -/
theorem C4_position_limit (tr : List Event) (h : goodRunB initGState tr = true) :
    -(POSITION_LIMIT : Int) ≤ (runFrom initState tr).etfPosition ∧
    (runFrom initState tr).etfPosition ≤ (POSITION_LIMIT : Int) := by
  have key : ∀ (tr' : List Event) (g : GState), goodRunB g tr' = true → ghostInv g →
      ghostInv (grun g tr') := by
    intro tr'
    induction tr' with
    | nil => intro g _ hi; exact hi
    | cons e es ih =>
        intro g hg hi
        have he : goodRunB g (e :: es) = (goodEventB g e && goodRunB (gstep g e) es) := rfl
        rw [he, Bool.and_eq_true] at hg
        exact ih (gstep g e) hg.2 (ghostInv_step g e hi hg.1)
  have h0 : ghostInv initGState := by
    constructor <;> simp [initGState, initState, POSITION_LIMIT]
  have h2 := key tr initGState h h0
  have h3 : (grun initGState tr).engine = runFrom initState tr := grun_engine tr initGState
  unfold ghostInv at h2
  rw [h3] at h2
  have hb1 : (0:Int) ≤ ((grun initGState tr).askRem : Int) := Int.natCast_nonneg _
  have hb2 : (0:Int) ≤ ((grun initGState tr).bidRem : Int) := Int.natCast_nonneg _
  exact ⟨by omega, by omega⟩

/-- Witness for C4 on a run whose single fill targets the current ask
within its submitted volume. -/
theorem C4_position_limit_witness :
    goodRunB initGState hedgeTrace = true ∧
    (-(POSITION_LIMIT : Int) ≤ (runFrom initState hedgeTrace).etfPosition ∧
     (runFrom initState hedgeTrace).etfPosition ≤ (POSITION_LIMIT : Int)) :=
  ⟨by decide, C4_position_limit hedgeTrace (by decide)⟩

/-- C4 (counterexample): the fills of `overfillTrace` are consistent with
the submitted volumes (each of the asks 1, 2, 3 fills exactly its submitted
50 lots), yet the position reaches -150, beyond the limit of 100: the claim
fails because cancel-raced orders remain fillable while their replacements
are sized without accounting for them. -/
theorem C4_counterexample :
    ¬ (∀ tr : List Event, fillsConsistent tr = true →
        ((runFrom initState tr).etfPosition).natAbs ≤ POSITION_LIMIT) := by
  intro h
  exact absurd (h overfillTrace (by decide)) (by decide)
